import Mathlib

/-!
Verification development for the `Webiste-for-gaming` repository: shallow
embeddings of the Scrapy spider templates (`src/scrapy-templates/*.py`) and of
the offline processor (`src/scripts/process-anime-character.py`), together with
theorems about the properties stated in the specification.

Strings are modelled as Lean `String` (a structure over `List Char`); Python
string helpers (`strip`, `startswith`, `in`, `split`, `join`, `lower`) are
re-implemented below over `List Char` so that every definition is executable
and kernel-reducible.
-/

set_option autoImplicit false

namespace Gaming

/-- Python whitespace characters recognised by `str.strip()` (ASCII subset). -/
def pySpace (c : Char) : Bool :=
  c = ' ' || c = '\t' || c = '\n' || c = '\r' || c = '\x0b' || c = '\x0c'

/-- Model of Python `str.strip()`: drop leading and trailing whitespace. -/
def pyStrip (s : String) : String :=
  String.mk (((s.data.dropWhile pySpace).reverse.dropWhile pySpace).reverse)

/-- `lcPre s pat` is true when `pat` is an initial segment of `s`
(character-list version of Python `str.startswith`). -/
def lcPre : List Char → List Char → Bool
  | _, [] => true
  | [], _ :: _ => false
  | a :: as, b :: bs => (a = b) && lcPre as bs

/-- Model of Python `str.startswith`. -/
def pyStartsWith (s pat : String) : Bool :=
  lcPre s.data pat.data

/-- `lcSub s pat` is true when `pat` occurs as a contiguous run inside `s`
(character-list version of Python `pat in s`). -/
def lcSub : List Char → List Char → Bool
  | [], pat => lcPre [] pat
  | c :: rest, pat => lcPre (c :: rest) pat || lcSub rest pat

/-- Model of Python `pat in s` for strings. -/
def pyContains (s pat : String) : Bool :=
  lcSub s.data pat.data

/-- Model of Python `str.split(sep)` for a one-character separator. -/
def splitOn (sep : Char) : List Char → List (List Char)
  | [] => [[]]
  | c :: cs =>
    match splitOn sep cs with
    | [] => [[]]
    | g :: gs => if c = sep then [] :: g :: gs else (c :: g) :: gs

/-- Model of Python `sep.join(xs)`. -/
def pyJoin (sep : String) : List String → String
  | [] => ""
  | [s] => s
  | s :: rest => s ++ sep ++ pyJoin sep rest

/-- Model of Python `str.lower()` (per-character lowering). -/
def pyLower (s : String) : String :=
  String.mk (s.data.map Char.toLower)

/-- Models `response.urljoin` (urllib's `urljoin`) restricted to the cases
exercised by the spiders: an absolute `http(s)` URL is returned unchanged and
the empty string resolves to the base URL; other relative references are
approximated by appending to the base. -/
def urljoin (base u : String) : String :=
  if pyStartsWith u "http://" || pyStartsWith u "https://" then u else base ++ u

/-- A record field value: Python emits strings, ints and booleans in the
item dictionaries. -/
inductive FVal where
  | s : String → FVal
  | n : Nat → FVal
  | b : Bool → FVal
deriving DecidableEq

/-- An emitted item: an ordered mapping from field name to value, mirroring the
Python `dict` literals yielded by the spiders. -/
abbrev Rec := List (String × FVal)

/-- The mutable pagination counters held on each spider instance:
`self.pages` (the configured ceiling) and `self.current_page`
(initialised to 1 in `__init__`). -/
structure Pager where
  pages : Nat
  currentPage : Nat
deriving DecidableEq

/-! ### `src/scrapy-templates/anime-character.py` — `AnimeCharacterSpider` -/

/-- One `tr` row of the MyAnimeList search results, as seen through the CSS
selectors of `AnimeCharacterSpider.parse`: each selector's `.get()` result. -/
structure AcRow where
  link : Option String
  name : Option String
  anime : Option String
  roles : Option String
deriving DecidableEq

/-- A response consumed by `AnimeCharacterSpider.parse`: its URL, the table
rows, and the `a[rel="next"]::attr(href)` selector result. -/
structure AcResponse where
  url : String
  rows : List AcRow
  nextCue : Option String
deriving DecidableEq

/-- `char_link.split('/')[-2] if '/' in char_link else ''` from
`AnimeCharacterSpider.parse`. -/
def acCharId (link : String) : String :=
  if pyContains link "/" then
    let parts := splitOn '/' link.data
    String.mk ((parts.get? (parts.length - 2)).getD [])
  else ""

/-- The item dictionary yielded by `AnimeCharacterSpider.parse` for one row. -/
def acRowRecord (query url : String) (page : Nat) (row : AcRow) (link : String) : Rec :=
  [("id", .s (acCharId link)),
   ("name", .s (pyStrip (row.name.getD ""))),
   ("url", .s (urljoin url link)),
   ("anime", .s (pyStrip (row.anime.getD ""))),
   ("roles", .s (pyStrip (row.roles.getD ""))),
   ("query", .s query),
   ("source", .s "myanimelist.net"),
   ("page", .n page)]

/-- Per-row extraction of `AnimeCharacterSpider.parse`: rows whose link is
missing or does not contain `/character/` are skipped (`continue`). -/
def acParseRow (query url : String) (page : Nat) (row : AcRow) : List Rec :=
  match row.link with
  | none => []
  | some l => if pyContains l "/character/" then [acRowRecord query url page row l] else []

/-- `AnimeCharacterSpider.parse`: extract all rows, then run the pagination
block (`if self.current_page < self.pages`, query the next cue, increment the
counter and schedule `response.urljoin(next_page)`). Returns the emitted items,
the updated counters, and the scheduled request URL (if any). -/
def acParse (query : String) (pg : Pager) (resp : AcResponse) : List Rec × Pager × Option String :=
  let items := resp.rows.map (acParseRow query resp.url pg.currentPage)
  if pg.currentPage < pg.pages then
    match resp.nextCue with
    | some u => (items.flatten, { pg with currentPage := pg.currentPage + 1 }, some (urljoin resp.url u))
    | none => (items.flatten, pg, none)
  else (items.flatten, pg, none)

/-- The crawl loop around `AnimeCharacterSpider.parse`: the environment
supplies one response per issued fetch (the seed fetch first); the run
processes a response, and continues only when `parse` scheduled a next-page
request. The result counts the pages fetched and processed. -/
def acRun (query : String) (pg : Pager) : List AcResponse → Nat
  | [] => 0
  | resp :: rest =>
    match (acParse query pg resp).2.2 with
    | some _ => 1 + acRun query (acParse query pg resp).2.1 rest
    | none => 1

/-- `acParse` schedules a next-page request only when `current_page < pages`,
and then increments the counter by exactly 1. -/
theorem acParse_scheduled_increment (query : String) (pg : Pager) (resp : AcResponse)
    (h : ((acParse query pg resp).2.2).isSome = true) :
    pg.currentPage < pg.pages ∧
      (acParse query pg resp).2.1.currentPage = pg.currentPage + 1 := by
  unfold acParse at *
  by_cases hlt : pg.currentPage < pg.pages
  · cases hcue : resp.nextCue with
    | none => simp [hlt, hcue] at h
    | some u => exact ⟨hlt, by simp [hlt, hcue]⟩
  · simp [hlt] at h

/-- When no request is scheduled the counters are unchanged. -/
theorem acParse_unscheduled_fixed (query : String) (pg : Pager) (resp : AcResponse)
    (h : (acParse query pg resp).2.2 = none) :
    (acParse query pg resp).2.1 = pg := by
  unfold acParse at *
  by_cases hlt : pg.currentPage < pg.pages
  · cases hcue : resp.nextCue with
    | none => simp [hlt, hcue]
    | some u => simp [hlt, hcue] at h
  · simp [hlt]

/-- The pair of counters and scheduled request produced by `acParse`,
written out by cases on the guard and the cue. -/
theorem acParse_snd (query : String) (pg : Pager) (resp : AcResponse) :
    (acParse query pg resp).2 =
      if pg.currentPage < pg.pages then
        match resp.nextCue with
        | some u => ({ pg with currentPage := pg.currentPage + 1 }, some (urljoin resp.url u))
        | none => (pg, none)
      else (pg, none) := by
  unfold acParse
  by_cases hlt : pg.currentPage < pg.pages
  · cases hcue : resp.nextCue <;> simp [hlt, hcue]
  · simp [hlt]

/-- Bound for the crawl loop: starting from counter `c ≤ P`, at most
`P + 1 - c` pages are fetched. -/
theorem acRun_le (query : String) (P : Nat) :
    ∀ (resps : List AcResponse) (c : Nat), c ≤ P →
      acRun query ⟨P, c⟩ resps ≤ P + 1 - c := by
  intro resps
  induction resps with
  | nil => intro c hc; simp [acRun]
  | cons r rest ih =>
    intro c hc
    unfold acRun
    rw [acParse_snd]
    by_cases hlt : c < P
    · cases hcue : r.nextCue with
      | none => simp [hlt, hcue]; omega
      | some u =>
        simp only [hlt, if_true, hcue]
        simp only [show (Pager.currentPage ⟨P, c⟩) < (Pager.pages ⟨P, c⟩) ↔ c < P from Iff.rfl] at *
        have := ih (c + 1) (by omega)
        simp
        omega
    · simp [show ¬ (Pager.currentPage ⟨P, c⟩ < Pager.pages ⟨P, c⟩) from hlt]
      omega

/-! ### `src/scrapy-templates/character-ai.py` — `CharacterAiSpider` -/

/-- One `div[data-character-id]` card as seen by `CharacterAiSpider.parse`:
each CSS selector's `.get()` result, plus the `getall()` list for tags. -/
structure CaCard where
  charId : Option String
  link : Option String
  name : Option String
  description : Option String
  author : Option String
  rating : Option String
  chats : Option String
  avatar : Option String
  tags : List String
deriving DecidableEq

/-- A response consumed by `CharacterAiSpider.parse`. -/
structure CaResponse where
  url : String
  cards : List CaCard
  nextCue : Option String
deriving DecidableEq

/-- The declared field keys of the item dictionary yielded by
`CharacterAiSpider.parse`, in source order. -/
def caFields : List String :=
  ["id", "name", "description", "category", "author", "rating", "chat_count",
   "url", "avatar", "tags", "source", "page"]

/-- The item dictionary yielded by `CharacterAiSpider.parse` for one card
whose link was present. -/
def caCardRecord (category url : String) (page : Nat) (c : CaCard) (link : String) : Rec :=
  [("id", .s (c.charId.getD "")),
   ("name", .s (pyStrip (c.name.getD ""))),
   ("description", .s (pyStrip (c.description.getD ""))),
   ("category", .s category),
   ("author", .s (pyStrip (c.author.getD ""))),
   ("rating", .s (pyStrip (c.rating.getD ""))),
   ("chat_count", .s (pyStrip (c.chats.getD ""))),
   ("url", .s (urljoin url link)),
   ("avatar", .s (c.avatar.getD "")),
   ("tags", .s (pyJoin "," c.tags)),
   ("source", .s "character.ai"),
   ("page", .n page)]

/-- Per-card extraction of `CharacterAiSpider.parse`: a card without a link is
skipped (`if not char_link: continue`); the `data-character-id` value alone
does not rescue it. -/
def caParseCard (category url : String) (page : Nat) (c : CaCard) : List Rec :=
  match c.link with
  | none => []
  | some l => [caCardRecord category url page c l]

/-- `CharacterAiSpider.parse`: extract the cards, then run the pagination
block over the `a.next::attr(href)` cue. -/
def caParse (category : String) (pg : Pager) (resp : CaResponse) : List Rec × Pager × Option String :=
  let items := (resp.cards.map (caParseCard category resp.url pg.currentPage)).flatten
  if pg.currentPage < pg.pages then
    match resp.nextCue with
    | some u => (items, { pg with currentPage := pg.currentPage + 1 }, some (urljoin resp.url u))
    | none => (items, pg, none)
  else (items, pg, none)

/-! ### `src/scrapy-templates/personality-traits.py` — `PersonalityTraitsSpider` -/

/-- One `div.type-card, div.personality-type` scope as seen by
`PersonalityTraitsSpider.parse`. -/
structure PtCard where
  dataType : Option String
  name : Option String
  description : Option String
  traits : List String
  strengths : List String
  weaknesses : List String
  link : Option String
deriving DecidableEq

/-- A response consumed by `PersonalityTraitsSpider.parse`: the matched cards
and the `a.type-link::attr(href)` detail links. -/
structure PtResponse where
  url : String
  cards : List PtCard
  detailLinks : List String
deriving DecidableEq

/-- The item dictionary yielded by `PersonalityTraitsSpider.parse` for one
card. There is no guard: every matched scope yields a record, even with no
`data-type` identifier and no link. -/
def ptCardRecord (url : String) (page : Nat) (c : PtCard) : Rec :=
  [("id", .s (c.dataType.getD "")),
   ("name", .s (pyStrip (c.name.getD ""))),
   ("code", .s (c.dataType.getD "")),
   ("description", .s (pyStrip (c.description.getD ""))),
   ("traits", .s (pyJoin "," c.traits)),
   ("strengths", .s (pyJoin "," c.strengths)),
   ("weaknesses", .s (pyJoin "," c.weaknesses)),
   ("url", .s (urljoin url (c.link.getD ""))),
   ("category", .s "mbti"),
   ("source", .s "16personalities.com"),
   ("page", .n page)]

/-- `PersonalityTraitsSpider.parse`: one record per matched card, then (when
the counter is below the ceiling) up to three detail-page requests. -/
def ptParse (pg : Pager) (resp : PtResponse) : List Rec × List String :=
  (resp.cards.map (ptCardRecord resp.url pg.currentPage),
   if pg.currentPage < pg.pages then (resp.detailLinks.take 3).map (urljoin resp.url) else [])

/-! ### `src/scrapy-templates/freesound-basic.py` — `FreesoundSpider` -/

/-- The two parse paths of `FreesoundSpider.parse`. -/
inductive FsPath where
  | api
  | web
deriving DecidableEq

/-- The dispatch at the top of `FreesoundSpider.parse`:
`response.headers.get('content-type', b'').decode('utf-8', 'ignore')
.startswith('application/json')` picks `parse_api`, anything else (including a
missing header, which decodes to the empty string) falls back to `parse_web`. -/
def freesoundDispatch (contentType : Option String) : FsPath :=
  if pyStartsWith (contentType.getD "") "application/json" then .api else .web

/-- One element of the decoded `results` array of the Freesound API payload:
`item.get(k, default)` per key used by `parse_api`. -/
structure FsItem where
  id : Option String
  name : Option String
  url : Option String
  username : Option String
  duration : Option String
  license : Option String
  download : Option String
  description : Option String
deriving DecidableEq

/-- The decoded JSON payload consumed by `FreesoundSpider.parse_api`:
`data.get('results', [])` and `data.get('next')`. -/
structure FsPayload where
  results : List FsItem
  next : Option String
deriving DecidableEq

/-- The declared field keys of the `parse_api` item dictionary, in source
order. -/
def fsApiFields : List String :=
  ["id", "name", "url", "username", "duration", "license", "downloads",
   "description", "genre", "source", "page"]

/-- The item dictionary yielded by `FreesoundSpider.parse_api` for one result.
`str(item.get('download', 0))` stringifies the default `0`. -/
def fsApiRecord (genre : String) (page : Nat) (item : FsItem) : Rec :=
  [("id", .s (item.id.getD "")),
   ("name", .s (item.name.getD "")),
   ("url", .s (item.url.getD "")),
   ("username", .s (item.username.getD "")),
   ("duration", .s (item.duration.getD "")),
   ("license", .s (item.license.getD "")),
   ("downloads", .s (item.download.getD "0")),
   ("description", .s (item.description.getD "")),
   ("genre", .s genre),
   ("source", .s "freesound.org"),
   ("page", .n page)]

/-- `FreesoundSpider.parse_api`. The whole body runs inside
`try: json.loads(...) ... except json.JSONDecodeError`, so an unparseable body
(modelled as `none`) yields no items, leaves the counters untouched and
schedules nothing; the handler only logs. An empty `results` array returns
early, before the pagination block. Otherwise the items are yielded and the
pagination block schedules `data.get('next')` (used verbatim, no `urljoin`)
while the counter is below the ceiling. -/
def freesoundParseApi (genre : String) (pg : Pager) (decoded : Option FsPayload) :
    List Rec × Pager × Option String :=
  match decoded with
  | none => ([], pg, none)
  | some data =>
    if data.results.isEmpty then ([], pg, none)
    else
      let items := data.results.map (fsApiRecord genre pg.currentPage)
      if pg.currentPage < pg.pages then
        match data.next with
        | some u => (items, { pg with currentPage := pg.currentPage + 1 }, some u)
        | none => (items, pg, none)
      else (items, pg, none)

/-- One `li[data-sound-id]` box as seen by `FreesoundSpider.parse_web`. -/
structure FsBox where
  soundId : Option String
  title : Option String
  titleHref : Option String
  user : Option String
  duration : Option String
  license : Option String
  downloads : Option String
deriving DecidableEq

/-- A response consumed by `FreesoundSpider.parse_web`. -/
structure FsWebResponse where
  url : String
  boxes : List FsBox
  nextCue : Option String
deriving DecidableEq

/-- The item dictionary yielded by `FreesoundSpider.parse_web` for one box
whose stripped `data-sound-id` was non-empty. -/
def fsWebRecord (genre url : String) (page : Nat) (b : FsBox) (sampleId : String) : Rec :=
  [("id", .s sampleId),
   ("name", .s (pyStrip (b.title.getD ""))),
   ("url", .s (urljoin url (b.titleHref.getD ""))),
   ("username", .s (pyStrip (b.user.getD ""))),
   ("duration", .s (pyStrip (b.duration.getD ""))),
   ("license", .s (pyStrip (b.license.getD ""))),
   ("downloads", .s (pyStrip (b.downloads.getD ""))),
   ("genre", .s genre),
   ("source", .s "freesound.org"),
   ("page", .n page)]

/-- Per-box extraction of `FreesoundSpider.parse_web`: boxes whose stripped
`data-sound-id` is empty are skipped. -/
def fsWebParseBox (genre url : String) (page : Nat) (b : FsBox) : List Rec :=
  let sampleId := pyStrip (b.soundId.getD "")
  if sampleId = "" then [] else [fsWebRecord genre url page b sampleId]

/-- `FreesoundSpider.parse_web`: extract the boxes, then run the pagination
block over the `a.next::attr(href)` cue. -/
def freesoundParseWeb (genre : String) (pg : Pager) (resp : FsWebResponse) :
    List Rec × Pager × Option String :=
  let items := (resp.boxes.map (fsWebParseBox genre resp.url pg.currentPage)).flatten
  if pg.currentPage < pg.pages then
    match resp.nextCue with
    | some u => (items, { pg with currentPage := pg.currentPage + 1 }, some (urljoin resp.url u))
    | none => (items, pg, none)
  else (items, pg, none)

/-! ### `src/scrapy-templates/hooktheory.py` — `HooktheorySpider` -/

/-- One element of a trend's `chords` array: `chord.get('chord', '')`. -/
structure HtChord where
  chord : Option String
deriving DecidableEq

/-- One element of the decoded `trends` array. -/
structure HtTrend where
  chords : List HtChord
  count : Nat
  relativefitnessscore : Nat
  num_songs : Nat
deriving DecidableEq

/-- The decoded JSON payload consumed by `HooktheorySpider.parse`: `none` for
the `trends` field models `'trends' not in data`. -/
structure HtPayload where
  trends : Option (List HtTrend)
deriving DecidableEq

/-- The non-empty chord names of a trend:
`chord_name = chord.get('chord', ''); if chord_name: append`. -/
def htChordNames (t : HtTrend) : List String :=
  t.chords.filterMap (fun c => let n := c.chord.getD ""; if n = "" then none else some n)

/-- `chord.split('-')[0] if '-' in chord else chord` — in both cases the
segment before the first `'-'`. -/
def htChordBase (chord : String) : String :=
  String.mk (chord.data.takeWhile (fun c => c ≠ '-'))

/-- The `notation_map` dictionary of `HooktheorySpider._chords_to_notation`. -/
def htNotaMap : List (String × String) :=
  [("I", "1"), ("i", "1"), ("II", "2"), ("ii", "2"), ("III", "3"), ("iii", "3"),
   ("IV", "4"), ("iv", "4"), ("V", "5"), ("v", "5"), ("VI", "6"), ("vi", "6"),
   ("VII", "7"), ("vii", "7")]

/-- `HooktheorySpider._chords_to_notation`: map each chord's base through the
map (falling back to the chord itself) and join with spaces. -/
def htChordsToRoman (chords : List String) : String :=
  pyJoin " " (chords.map (fun chord => ((htNotaMap.lookup (htChordBase chord)).getD chord)))

/-- `HooktheorySpider._detect_key`: a heuristic on the lowercased first chord.
(The `startswith('I')` test is applied to the already-lowercased string, as in
the source.) -/
def htDetectKey (chords : List String) : String :=
  match chords with
  | [] => "Unknown"
  | c :: _ =>
    let first := pyLower c
    if pyContains first "maj" || pyStartsWith first "I" then "Major"
    else if pyContains first "min" || pyStartsWith first "vi" then "Minor"
    else "Unknown"

/-- The item dictionary yielded by `HooktheorySpider.parse` for one trend with
a non-empty chord list. The progression separator reproduces the source
literal `' â†’ '`. -/
def htRecord (t : HtTrend) (chordList : List String) : Rec :=
  [("progression", .s (pyJoin " â†’ " chordList)),
   ("count", .n t.count),
   ("relative_count", .n t.relativefitnessscore),
   ("num_songs", .n t.num_songs),
   ("notation", .s (htChordsToRoman chordList)),
   ("key", .s (htDetectKey chordList)),
   ("source", .s "hooktheory.com"),
   ("music_theory_data", .b true)]

/-- The trend loop of `HooktheorySpider.parse`, threading the
`self.processed_count` counter: stop once the counter reaches `self.limit`,
skip trends with no usable chords, otherwise yield and count. -/
def htLoop (limit : Nat) : Nat → List HtTrend → List Rec
  | _, [] => []
  | n, t :: ts =>
    if limit ≤ n then []
    else
      let cl := htChordNames t
      if cl.isEmpty then htLoop limit n ts
      else htRecord t cl :: htLoop limit (n + 1) ts

/-- `HooktheorySpider.parse`: `json.loads` inside `try/except JSONDecodeError`
(an unparseable body, modelled as `none`, yields nothing and only logs), then
the `'trends' not in data` early return, then the trend loop. The spider has
no pagination at all. -/
def hooktheoryParse (limit processedCount : Nat) (decoded : Option HtPayload) : List Rec :=
  match decoded with
  | none => []
  | some data =>
    match data.trends with
    | none => []
    | some ts => htLoop limit processedCount ts

/-! ### `src/scripts/process-anime-character.py` — `process_anime_character_data`

The script decodes a JSON array of character dictionaries, transforms each,
keeps only those with a non-empty stripped name, groups by series and by
category (Python dicts preserve insertion order), and writes four
pretty-printed JSON files. The model below takes the already-decoded array
(the `isinstance(raw_data, list)` branch that proceeds) and models the output
directory as a mapping from filename to serialized content; `json.dump` is
modelled by a deterministic serializer (indentation elided — determinism,
not byte layout, is what the theorems use). -/

/-- One element of the decoded input array: `char.get(k, default)` per key
used by the script. -/
structure RawChar where
  id : Option String
  name : Option String
  url : Option String
  anime : Option String
  roles : Option String
  query : Option String
deriving DecidableEq

/-- The transformed character dictionary built inside the loop of
`process_anime_character_data`. -/
structure ProcessedChar where
  id : String
  name : String
  source : String
  mal_id : String
  url : String
  series : String
  roles : String
  category : String
  personalityTraits : List String
  description : String
  timestamp : Option Nat
deriving DecidableEq

/-- The per-character transform of `process_anime_character_data`:
`char.get('anime', '').strip() or 'Unknown'` and
`char.get('roles', '').strip() or 'Main'` use Python string truthiness. -/
def transformChar (c : RawChar) : ProcessedChar :=
  { id := "mal-" ++ c.id.getD ""
  , name := pyStrip (c.name.getD "")
  , source := "myanimelist"
  , mal_id := c.id.getD ""
  , url := c.url.getD ""
  , series := if pyStrip (c.anime.getD "") = "" then "Unknown" else pyStrip (c.anime.getD "")
  , roles := if pyStrip (c.roles.getD "") = "" then "Main" else pyStrip (c.roles.getD "")
  , category := c.query.getD "fantasy"
  , personalityTraits := []
  , description := ""
  , timestamp := none }

/-- The `processed_characters` list: transformed entries appended only when
`processed['name']` is truthy (non-empty). -/
def processChars (raw : List RawChar) : List ProcessedChar :=
  (raw.map transformChar).filter (fun p => p.name != "")

/-- `if key not in d: d[key] = []` followed by `d[key].append(v)` on an
insertion-ordered dictionary. -/
def insertGroup {α : Type} (m : List (String × List α)) (k : String) (v : α) :
    List (String × List α) :=
  match m with
  | [] => [(k, [v])]
  | (k', vs) :: rest =>
    if k' = k then (k', vs ++ [v]) :: rest else (k', vs) :: insertGroup rest k v

/-- The grouping loops of `process_anime_character_data` (`by_series`,
`by_category`): an insertion-ordered dictionary from key to the entries
carrying it, in encounter order. -/
def groupByKey {α : Type} (f : α → String) (rs : List α) : List (String × List α) :=
  rs.foldl (fun m r => insertGroup m (f r) r) []

/-- A value of the summary dictionary. -/
inductive SumVal where
  | n : Nat → SumVal
  | strs : List String → SumVal
  | files : List (String × String) → SumVal
deriving DecidableEq

/-- The `files` sub-dictionary of the summary. -/
def summaryFiles : List (String × String) :=
  [("all", "myanimelist-characters.json"),
   ("by_series", "myanimelist-by-series.json"),
   ("by_category", "myanimelist-by-category.json")]

/-- The `summary` dictionary built by `process_anime_character_data`, with its
keys in source order. -/
def summaryOf (ps : List ProcessedChar) : List (String × SumVal) :=
  [("total_characters", .n ps.length),
   ("unique_series", .n (groupByKey (fun p => p.series) ps).length),
   ("categories", .strs ((groupByKey (fun p => p.category) ps).map Prod.fst)),
   ("series_list", .strs ((groupByKey (fun p => p.series) ps).map Prod.fst)),
   ("files", .files summaryFiles)]

/-- JSON string escaping (quote and backslash). -/
def jEsc (s : String) : String :=
  s.data.foldl
    (fun acc c =>
      acc ++ (if c = '\x22' then "\\\x22" else if c = '\\' then "\\\\" else String.singleton c))
    ""

/-- A JSON string literal. -/
def jStr (s : String) : String := "\x22" ++ jEsc s ++ "\x22"

/-- A JSON array from already-serialized elements. -/
def jArr (xs : List String) : String := "[" ++ pyJoin ", " xs ++ "]"

/-- A JSON object from keys and already-serialized values. -/
def jObj (kvs : List (String × String)) : String :=
  "\x7b" ++ pyJoin ", " (kvs.map (fun kv => jStr kv.1 ++ ": " ++ kv.2)) ++ "\x7d"

/-- Serialization of one processed character. -/
def serChar (p : ProcessedChar) : String :=
  jObj [("id", jStr p.id), ("name", jStr p.name), ("source", jStr p.source),
        ("mal_id", jStr p.mal_id), ("url", jStr p.url), ("series", jStr p.series),
        ("roles", jStr p.roles), ("category", jStr p.category),
        ("personality_traits", jArr (p.personalityTraits.map jStr)),
        ("description", jStr p.description),
        ("timestamp", match p.timestamp with | none => "null" | some t => toString t)]

/-- Serialization of the full dataset file. -/
def serChars (ps : List ProcessedChar) : String := jArr (ps.map serChar)

/-- Serialization of a grouped dataset file. -/
def serGroups (g : List (String × List ProcessedChar)) : String :=
  jObj (g.map (fun kv => (kv.1, serChars kv.2)))

/-- Serialization of one summary value. -/
def serSumVal : SumVal → String
  | .n k => toString k
  | .strs xs => jArr (xs.map jStr)
  | .files kvs => jObj (kvs.map (fun kv => (kv.1, jStr kv.2)))

/-- Serialization of the summary file. -/
def serSummary (s : List (String × SumVal)) : String :=
  jObj (s.map (fun kv => (kv.1, serSumVal kv.2)))

/-- The output directory, as a mapping from filename to file content. -/
abbrev FileStore := String → Option String

/-- `open(path, 'w')` followed by a full write: overwrite the entry. -/
def storeWrite (fs : FileStore) (nm content : String) : FileStore :=
  fun k => if k = nm then some content else fs k

/-- `process_anime_character_data` on an already-decoded list: transform and
filter, write the full dataset, the two grouped datasets and the summary. -/
def processRun (fs : FileStore) (raw : List RawChar) : FileStore :=
  let ps := processChars raw
  let fs1 := storeWrite fs "myanimelist-characters.json" (serChars ps)
  let fs2 := storeWrite fs1 "myanimelist-by-series.json"
    (serGroups (groupByKey (fun p => p.series) ps))
  let fs3 := storeWrite fs2 "myanimelist-by-category.json"
    (serGroups (groupByKey (fun p => p.category) ps))
  storeWrite fs3 "myanimelist-summary.json" (serSummary (summaryOf ps))

/-! ### Helper lemmas about the insertion-ordered grouping dictionary -/

theorem insertGroup_keys {α : Type} (m : List (String × List α)) (k : String) (v : α)
    (a : String) :
    a ∈ (insertGroup m k v).map Prod.fst ↔ a ∈ m.map Prod.fst ∨ a = k := by
  induction m with
  | nil => simp [insertGroup]
  | cons hd tl ih =>
    obtain ⟨k', vs⟩ := hd
    by_cases h : k' = k
    · subst h
      simp [insertGroup]
      tauto
    · simp [insertGroup, h, ih]
      tauto

theorem insertGroup_keys_nodup {α : Type} (m : List (String × List α)) (k : String) (v : α)
    (h : (m.map Prod.fst).Nodup) :
    ((insertGroup m k v).map Prod.fst).Nodup := by
  induction m with
  | nil => simp [insertGroup]
  | cons hd tl ih =>
    obtain ⟨k', vs⟩ := hd
    simp only [List.map_cons, List.nodup_cons] at h
    by_cases hk : k' = k
    · subst hk
      simpa [insertGroup] using h
    · simp only [insertGroup, hk, if_false, List.map_cons, List.nodup_cons]
      refine ⟨?_, ih h.2⟩
      rw [insertGroup_keys]
      rintro (hmem | rfl)
      · exact h.1 hmem
      · exact hk rfl

theorem insertGroup_mem_val {α : Type} (m : List (String × List α)) (k : String) (v : α)
    (g : String × List α) (x : α) (hg : g ∈ insertGroup m k v) (hx : x ∈ g.2) :
    (∃ g' ∈ m, x ∈ g'.2) ∨ x = v := by
  induction m with
  | nil =>
    simp [insertGroup] at hg
    subst hg
    simp at hx
    exact Or.inr hx
  | cons hd tl ih =>
    obtain ⟨k', vs⟩ := hd
    by_cases hk : k' = k
    · subst hk
      simp [insertGroup] at hg
      rcases hg with rfl | hg
      · simp at hx
        rcases hx with hx | rfl
        · exact Or.inl ⟨(k', vs), by simp, hx⟩
        · exact Or.inr rfl
      · exact Or.inl ⟨g, by simp [hg], hx⟩
    · simp [insertGroup, hk] at hg
      rcases hg with rfl | hg
      · exact Or.inl ⟨(k', vs), by simp, hx⟩
      · rcases ih hg with ⟨g', hg', hx'⟩ | hv
        · exact Or.inl ⟨g', by simp [hg'], hx'⟩
        · exact Or.inr hv

theorem groupByKey_aux_keys {α : Type} (f : α → String) :
    ∀ (rs : List α) (acc : List (String × List α)), (acc.map Prod.fst).Nodup →
      (((rs.foldl (fun m r => insertGroup m (f r) r) acc).map Prod.fst).Nodup ∧
        ∀ a, a ∈ (rs.foldl (fun m r => insertGroup m (f r) r) acc).map Prod.fst ↔
          a ∈ acc.map Prod.fst ∨ a ∈ rs.map f) := by
  intro rs
  induction rs with
  | nil => intro acc h; refine ⟨h, fun a => by simp⟩
  | cons r rest ih =>
    intro acc h
    simp only [List.foldl_cons]
    obtain ⟨hn, hm⟩ := ih (insertGroup acc (f r) r) (insertGroup_keys_nodup acc (f r) r h)
    refine ⟨hn, fun a => ?_⟩
    rw [hm a, insertGroup_keys]
    simp only [List.map_cons, List.mem_cons]
    tauto

/-- The grouping dictionary has pairwise-distinct keys. -/
theorem groupByKey_keys_nodup {α : Type} (f : α → String) (rs : List α) :
    ((groupByKey f rs).map Prod.fst).Nodup :=
  (groupByKey_aux_keys f rs [] (by simp)).1

/-- The keys of the grouping dictionary are exactly the key values occurring
in the input. -/
theorem groupByKey_keys_mem {α : Type} (f : α → String) (rs : List α) (a : String) :
    a ∈ (groupByKey f rs).map Prod.fst ↔ a ∈ rs.map f := by
  have := (groupByKey_aux_keys f rs [] (by simp)).2 a
  simpa [groupByKey] using this

/-- The number of groups equals the number of distinct key values occurring in
the input. -/
theorem groupByKey_length {α : Type} (f : α → String) (rs : List α) :
    (groupByKey f rs).length = (rs.map f).toFinset.card := by
  have hkeys : (groupByKey f rs).length = ((groupByKey f rs).map Prod.fst).length := by simp
  rw [hkeys, ← List.toFinset_card_of_nodup (groupByKey_keys_nodup f rs)]
  congr 1
  ext a
  simp only [List.mem_toFinset]
  exact groupByKey_keys_mem f rs a

theorem groupByKey_aux_mem_val {α : Type} (f : α → String) :
    ∀ (rs : List α) (acc : List (String × List α)) (g : String × List α) (x : α),
      g ∈ rs.foldl (fun m r => insertGroup m (f r) r) acc → x ∈ g.2 →
        (∃ g' ∈ acc, x ∈ g'.2) ∨ x ∈ rs := by
  intro rs
  induction rs with
  | nil =>
    intro acc g x hg hx
    exact Or.inl ⟨g, hg, hx⟩
  | cons r rest ih =>
    intro acc g x hg hx
    simp only [List.foldl_cons] at hg
    rcases ih (insertGroup acc (f r) r) g x hg hx with ⟨g', hg', hx'⟩ | hmem
    · rcases insertGroup_mem_val acc (f r) r g' x hg' hx' with ⟨g'', hg'', hx''⟩ | rfl
      · exact Or.inl ⟨g'', hg'', hx''⟩
      · exact Or.inr (by simp)
    · exact Or.inr (by simp [hmem])

/-- Every entry stored in a group of the grouping dictionary comes from the
input list. -/
theorem groupByKey_mem_val {α : Type} (f : α → String) (rs : List α)
    (g : String × List α) (x : α) (hg : g ∈ groupByKey f rs) (hx : x ∈ g.2) :
    x ∈ rs := by
  rcases groupByKey_aux_mem_val f rs [] g x hg hx with ⟨g', hg', _⟩ | h
  · simp [groupByKey] at hg'
  · exact h

/-! ### Claim theorems -/

/-- C1: for every crawl run with a configured page ceiling `P ≥ 1`, the
pagination loop fetches at most `P` pages and terminates; the page counter
(which starts at 1) increments by exactly 1 each time a next-page request is
scheduled, a request is scheduled only while the counter is strictly below the
ceiling, and the counter never exceeds the ceiling. -/
theorem pagination_ceiling_bound (P : Nat) (hP : 1 ≤ P) (query : String) :
    (∀ resps : List AcResponse, acRun query ⟨P, 1⟩ resps ≤ P) ∧
    (∀ (pg : Pager) (resp : AcResponse), ((acParse query pg resp).2.2).isSome = true →
        pg.currentPage < pg.pages ∧
        (acParse query pg resp).2.1.currentPage = pg.currentPage + 1) ∧
    (∀ (pg : Pager) (resp : AcResponse), pg.pages = P → pg.currentPage ≤ P →
        (acParse query pg resp).2.1.currentPage ≤ P) := by
  refine ⟨fun resps => ?_, fun pg resp h => acParse_scheduled_increment query pg resp h,
    fun pg resp hpg hc => ?_⟩
  · have := acRun_le query P resps 1 hP
    omega
  · cases hreq : (acParse query pg resp).2.2 with
    | none =>
      rw [acParse_unscheduled_fixed query pg resp hreq]
      exact hc
    | some u =>
      have h := acParse_scheduled_increment query pg resp (by simp [hreq])
      omega

/-- C1 witness: a ceiling of 3 on a concrete crawl. -/
theorem pagination_ceiling_bound_inst :
    acRun "fantasy" ⟨3, 1⟩
        [⟨"https://myanimelist.net/character.php?q=fantasy", [],
          some "https://myanimelist.net/character.php?q=fantasy&show=50"⟩] ≤ 3 :=
  (pagination_ceiling_bound 3 (by decide) "fantasy").1 _

/-- C2 counterexample: a page whose `a[rel="next"]` cue is the page's own URL.
`AnimeCharacterSpider.parse` has no cycle guard: with the counter below the
ceiling it schedules a request whose target URL equals the URL of the page
being processed, contradicting the claim that such a request is never
scheduled. -/
theorem acParse_schedules_self_url :
    (acParse "fantasy" ⟨3, 1⟩
        ⟨"https://myanimelist.net/character.php?q=fantasy", [],
          some "https://myanimelist.net/character.php?q=fantasy"⟩).2.2 =
      some "https://myanimelist.net/character.php?q=fantasy" := by
  decide

/-- C2 amended: when the discovered next-page cue resolves to the current
page's URL, the controller still schedules that request (there is no cycle
guard) whenever the counter is below the ceiling; pagination nonetheless
terminates because the page ceiling bounds the total number of fetches. -/
theorem acParse_no_cycle_guard (query : String) (pg : Pager) (resp : AcResponse)
    (h1 : pg.currentPage < pg.pages)
    (h2 : resp.nextCue = some resp.url)
    (h3 : pyStartsWith resp.url "https://" = true) :
    (acParse query pg resp).2.2 = some resp.url ∧
    ∀ resps : List AcResponse, acRun query ⟨pg.pages, 1⟩ resps ≤ pg.pages := by
  constructor
  · unfold acParse
    simp [h1, h2, urljoin, h3]
  · intro resps
    have := acRun_le query pg.pages resps 1 (by omega)
    omega

/-- C2 witness: the self-pointing cue of the counterexample, scheduled. -/
theorem acParse_no_cycle_guard_inst :
    (acParse "fantasy" ⟨3, 1⟩
        ⟨"https://myanimelist.net/character.php?q=fantasy", [],
          some "https://myanimelist.net/character.php?q=fantasy"⟩).2.2 =
      some "https://myanimelist.net/character.php?q=fantasy" ∧
    ∀ resps : List AcResponse, acRun "fantasy" ⟨3, 1⟩ resps ≤ 3 :=
  acParse_no_cycle_guard "fantasy" ⟨3, 1⟩
    ⟨"https://myanimelist.net/character.php?q=fantasy", [],
      some "https://myanimelist.net/character.php?q=fantasy"⟩
    (by decide) (by decide) (by decide)

/-- C3 counterexample: two ingested entries share the entity key `mal-7`
(both with non-empty names); the final dataset of
`process_anime_character_data` keeps both — two records with that key, not
one merged record. -/
theorem processChars_duplicate_entity_kept :
    ((processChars
        [⟨some "7", some "Beta", none, none, none, none⟩,
         ⟨some "7", some "Beta", some "https://x", none, none, none⟩]).filter
      (fun r => r.id == "mal-7")).length = 2 := by
  decide

/-- C3 amended: the sink performs no field-wise merge and no deduplication;
every ingested entry whose stripped name is non-empty is appended, so two
ingested entries sharing an entity key yield two records with that key in the
final dataset. -/
theorem processChars_appends_per_record (c : RawChar)
    (h : pyStrip (c.name.getD "") ≠ "") :
    (processChars [c, c]).length = 2 ∧
    ∀ r ∈ processChars [c, c], r.id = "mal-" ++ c.id.getD "" := by
  constructor
  · simp [processChars, transformChar, h]
  · intro r hr
    unfold processChars at hr
    rcases List.mem_map.mp (List.mem_of_mem_filter hr) with ⟨c', hc', rfl⟩
    simp at hc'
    subst hc'
    rfl

/-- C3 witness: a concrete duplicated entry with a non-empty name. -/
theorem processChars_appends_per_record_inst :
    (processChars [⟨some "7", some "Beta", none, none, none, none⟩,
                   ⟨some "7", some "Beta", none, none, none, none⟩]).length = 2 :=
  (processChars_appends_per_record ⟨some "7", some "Beta", none, none, none, none⟩
    (by decide)).1

/-- C10: the processor silently drops input entries whose name is empty after
stripping: every record of the full dataset (and of every grouped dataset)
has a non-empty name, and the total record count equals the number of input
entries with a non-empty stripped name. -/
theorem processChars_nonempty_names (raw : List RawChar) :
    (∀ r ∈ processChars raw, r.name ≠ "") ∧
    (processChars raw).length =
      (raw.filter (fun c => pyStrip (c.name.getD "") != "")).length ∧
    (∀ g ∈ groupByKey (fun p => p.series) (processChars raw), ∀ r ∈ g.2, r.name ≠ "") ∧
    (∀ g ∈ groupByKey (fun p => p.category) (processChars raw), ∀ r ∈ g.2, r.name ≠ "") := by
  have hmem : ∀ r ∈ processChars raw, r.name ≠ "" := by
    intro r hr
    have := (List.mem_filter.mp hr).2
    simpa using this
  refine ⟨hmem, ?_, ?_, ?_⟩
  · show ((raw.map transformChar).filter (fun p => p.name != "")).length = _
    rw [List.filter_map, List.length_map]
    rfl
  · intro g hg r hr
    exact hmem r (groupByKey_mem_val _ _ g r hg hr)
  · intro g hg r hr
    exact hmem r (groupByKey_mem_val _ _ g r hg hr)

/-- C10 witness: of two concrete inputs, the whitespace-named one is dropped
and the other is kept with its non-empty stripped name. -/
theorem processChars_nonempty_names_inst :
    (transformChar ⟨some "2", some " Alpha ", none, some "Naruto", none, some "action"⟩).name ≠ "" ∧
    (processChars [⟨some "1", some "  ", none, none, none, none⟩,
                   ⟨some "2", some " Alpha ", none, some "Naruto", none, some "action"⟩]).length =
      (([⟨some "1", some "  ", none, none, none, none⟩,
         ⟨some "2", some " Alpha ", none, some "Naruto", none, some "action"⟩] :
          List RawChar).filter (fun c => pyStrip (c.name.getD "") != "")).length :=
  ⟨(processChars_nonempty_names
      [⟨some "1", some "  ", none, none, none, none⟩,
       ⟨some "2", some " Alpha ", none, some "Naruto", none, some "action"⟩]).1 _ (by decide),
   (processChars_nonempty_names
      [⟨some "1", some "  ", none, none, none, none⟩,
       ⟨some "2", some " Alpha ", none, some "Naruto", none, some "action"⟩]).2.1⟩

/-- C4: every record emitted by extraction carries every declared field key,
and a field whose source datum is absent gets the declared empty default —
shown for the `character.ai` card records and the Freesound API item records. -/
theorem extract_all_fields_present :
    (∀ (category url : String) (page : Nat) (c : CaCard) (r : Rec),
        r ∈ caParseCard category url page c → r.map Prod.fst = caFields) ∧
    (∀ (genre : String) (page : Nat) (item : FsItem),
        (fsApiRecord genre page item).map Prod.fst = fsApiFields) ∧
    (∀ (category url : String) (page : Nat) (c : CaCard) (r : Rec),
        r ∈ caParseCard category url page c → c.name = none →
        r.lookup "name" = some (.s "")) ∧
    (∀ (genre : String) (page : Nat) (item : FsItem), item.description = none →
        (fsApiRecord genre page item).lookup "description" = some (.s "")) := by
  refine ⟨?_, fun genre page item => rfl, ?_, ?_⟩
  · intro category url page c r hr
    cases hl : c.link with
    | none => simp [caParseCard, hl] at hr
    | some l =>
      simp [caParseCard, hl] at hr
      subst hr
      rfl
  · intro category url page c r hr hname
    cases hl : c.link with
    | none => simp [caParseCard, hl] at hr
    | some l =>
      simp [caParseCard, hl] at hr
      subst hr
      simp [caCardRecord, hname]
      rfl
  · intro genre page item hd
    simp [fsApiRecord, hd]
    rfl

/-- C4 witness: a concrete card with a link and no name datum. -/
theorem extract_all_fields_present_inst :
    (caCardRecord "fantasy" "https://character.ai/search?q=fantasy" 1
        ⟨some "42", some "/chat/42", none, none, none, none, none, none, []⟩
        "/chat/42").map Prod.fst = caFields ∧
    (caCardRecord "fantasy" "https://character.ai/search?q=fantasy" 1
        ⟨some "42", some "/chat/42", none, none, none, none, none, none, []⟩
        "/chat/42").lookup "name" = some (.s "") :=
  ⟨extract_all_fields_present.1 "fantasy" "https://character.ai/search?q=fantasy" 1
      ⟨some "42", some "/chat/42", none, none, none, none, none, none, []⟩ _ (by decide),
   extract_all_fields_present.2.2.1 "fantasy" "https://character.ai/search?q=fantasy" 1
      ⟨some "42", some "/chat/42", none, none, none, none, none, none, []⟩ _ (by decide) rfl⟩

/-- C5 counterexample: a `personality-traits` item scope with neither a
`data-type` identifier nor a link still yields one record (whose `id` is
empty), contradicting the claim that such a scope yields zero records. -/
theorem ptParse_emits_without_id_or_link :
    ((ptParse ⟨1, 1⟩
        ⟨"https://www.16personalities.com/personality-types",
         [⟨none, none, none, [], [], [], none⟩], []⟩).1).length = 1 ∧
    ((ptParse ⟨1, 1⟩
        ⟨"https://www.16personalities.com/personality-types",
         [⟨none, none, none, [], [], [], none⟩], []⟩).1).map
        (fun r => r.lookup "id") = [some (.s "")] := by
  constructor <;> decide

/-- C5 amended: in the `anime-character` and `character.ai` extractors an item
scope without a usable link yields zero records (for `anime-character` also
when the link does not contain `/character/`); the `personality-traits`
extractor, by contrast, emits exactly one record per matched scope, even one
lacking both identifier and link. -/
theorem extract_link_guard (query url category : String) (page : Nat) :
    (∀ row : AcRow, row.link = none → acParseRow query url page row = []) ∧
    (∀ (row : AcRow) (l : String), row.link = some l →
        pyContains l "/character/" = false → acParseRow query url page row = []) ∧
    (∀ c : CaCard, c.link = none → caParseCard category url page c = []) ∧
    (∀ (pg : Pager) (resp : PtResponse), ((ptParse pg resp).1).length = resp.cards.length) := by
  refine ⟨?_, ?_, ?_, ?_⟩
  · intro row h
    simp [acParseRow, h]
  · intro row l h hc
    simp [acParseRow, h, hc]
  · intro c h
    simp [caParseCard, h]
  · intro pg resp
    simp [ptParse]

/-- C5 witness: a concrete linkless row and a concrete linkless card (the
latter even carries an identifier) are both skipped. -/
theorem extract_link_guard_inst :
    acParseRow "fantasy" "https://myanimelist.net/character.php?q=fantasy" 1
        ⟨none, none, none, none⟩ = [] ∧
    caParseCard "fantasy" "https://character.ai/search?q=fantasy" 1
        ⟨some "42", none, none, none, none, none, none, none, []⟩ = [] :=
  ⟨(extract_link_guard "fantasy" "https://myanimelist.net/character.php?q=fantasy"
      "fantasy" 1).1 ⟨none, none, none, none⟩ rfl,
   (extract_link_guard "fantasy" "https://character.ai/search?q=fantasy"
      "fantasy" 1).2.2.1 ⟨some "42", none, none, none, none, none, none, none, []⟩ rfl⟩

/-- C6: a structured (JSON) response whose body fails to parse (modelled as a
`none` decoding result) yields zero extracted records, schedules no follow-up
request and leaves the pagination counters untouched, for both
`FreesoundSpider.parse_api` and `HooktheorySpider.parse`; both model
functions are total, mirroring the `except json.JSONDecodeError` handlers that
only log. -/
theorem malformed_payload_inert (genre : String) (pg : Pager) (limit n : Nat) :
    freesoundParseApi genre pg none = ([], pg, none) ∧
    hooktheoryParse limit n none = [] :=
  ⟨rfl, rfl⟩

/-- C7: finalization is idempotent — running
`process_anime_character_data`'s write-out twice on the same ingested input
leaves every persisted file (full dataset, both groupings, summary)
byte-identical to the first run. -/
theorem processRun_idempotent (fs : FileStore) (raw : List RawChar) :
    processRun (processRun fs raw) raw = processRun fs raw := by
  funext k
  simp only [processRun, storeWrite]
  by_cases h1 : k = "myanimelist-summary.json" <;>
    by_cases h2 : k = "myanimelist-by-category.json" <;>
      by_cases h3 : k = "myanimelist-by-series.json" <;>
        by_cases h4 : k = "myanimelist-characters.json" <;>
          simp [h1, h2, h3, h4]

/-- C8: the parse-path choice of `FreesoundSpider.parse` is a pure function
of the content-type: the structured (API/JSON) path is taken exactly when the
header value starts with `application/json`, and a missing content-type falls
back to the semi-structured (web/HTML) path. -/
theorem freesoundDispatch_content_type (ct : Option String) :
    (freesoundDispatch ct = .api ↔
      ∃ s, ct = some s ∧ pyStartsWith s "application/json" = true) ∧
    freesoundDispatch none = .web := by
  constructor
  · constructor
    · intro h
      cases ct with
      | none =>
        have hfalse : pyStartsWith "" "application/json" = false := rfl
        simp [freesoundDispatch, hfalse] at h
      | some s =>
        refine ⟨s, rfl, ?_⟩
        by_cases hs : pyStartsWith s "application/json" = true
        · exact hs
        · simp [freesoundDispatch, hs] at h
    · rintro ⟨s, rfl, hs⟩
      simp [freesoundDispatch, hs]
  · rfl

/-- C9 counterexample: for a concrete ingested collection (three records with
categories `a`, `a`, `b`), the persisted summary's keys are
`total_characters`, `unique_series`, `categories`, `series_list`, `files` —
the keys `total_records`, `distinct_groups` and `group_names` named by the
claim are absent. -/
theorem summary_missing_spec_keys :
    ((summaryOf (processChars
        [⟨some "1", some "A", none, some "S1", none, some "a"⟩,
         ⟨some "2", some "B", none, some "S1", none, some "a"⟩,
         ⟨some "3", some "C", none, some "S2", none, some "b"⟩])).map Prod.fst =
      ["total_characters", "unique_series", "categories", "series_list", "files"]) ∧
    ("total_records" ∉ (summaryOf (processChars
        [⟨some "1", some "A", none, some "S1", none, some "a"⟩,
         ⟨some "2", some "B", none, some "S1", none, some "a"⟩,
         ⟨some "3", some "C", none, some "S2", none, some "b"⟩])).map Prod.fst) ∧
    ("distinct_groups" ∉ (summaryOf (processChars
        [⟨some "1", some "A", none, some "S1", none, some "a"⟩,
         ⟨some "2", some "B", none, some "S1", none, some "a"⟩,
         ⟨some "3", some "C", none, some "S2", none, some "b"⟩])).map Prod.fst) ∧
    ("group_names" ∉ (summaryOf (processChars
        [⟨some "1", some "A", none, some "S1", none, some "a"⟩,
         ⟨some "2", some "B", none, some "S1", none, some "a"⟩,
         ⟨some "3", some "C", none, some "S2", none, some "b"⟩])).map Prod.fst) := by
  refine ⟨by decide, by decide, by decide, by decide⟩

/-- C9 amended: the persisted summary's keys are `total_characters`,
`unique_series`, `categories`, `series_list` and `files` (the latter mapping
logical names to filenames), and the value reported for `unique_series`
equals the number of distinct series values among the persisted records. -/
theorem summary_keys_and_distinct_groups (raw : List RawChar) :
    ((summaryOf (processChars raw)).map Prod.fst =
      ["total_characters", "unique_series", "categories", "series_list", "files"]) ∧
    ((summaryOf (processChars raw)).lookup "unique_series" =
      some (.n (((processChars raw).map (fun p => p.series)).toFinset.card))) ∧
    ((summaryOf (processChars raw)).lookup "files" = some (.files summaryFiles)) ∧
    ((summaryOf (processChars raw)).lookup "total_characters" =
      some (.n (processChars raw).length)) := by
  refine ⟨rfl, ?_, rfl, rfl⟩
  have h : (summaryOf (processChars raw)).lookup "unique_series" =
      some (.n (groupByKey (fun p => p.series) (processChars raw)).length) := rfl
  rw [h, groupByKey_length]

end Gaming
